import Mathlib

/-!
Formal model of the mutant-generation core of the move-mutation-tools
repository (crates move-mutator and move-mutation-test).

Each definition is a shallow embedding of one Rust item, translated
directly from the source file named in its doc comment.  Machine
integers are modelled as Nat (all quantities involved are unsigned and
no arithmetic here can overflow in practice), strings as List Char
(byte index = character index, which is exact for the ASCII sources the
indices point into), BTreeMap as an association list, and fallible Rust
code (slicing panics, Vec::remove panics, expect) as Option where none
is a panic.
-/

/-- Half-open span of source bytes, from codespan::Span.  The source field
names are start and end; end is a Lean keyword, so the second field is
called stop. -/
structure Span where
  start : Nat
  stop : Nat
deriving DecidableEq

/-- codespan::Span::merge: the covering span of the two inputs. -/
def Span.merge (a b : Span) : Span :=
  Span.mk (min a.start b.start) (max a.stop b.stop)

/-- State of the inner loop of Coverage::check_location
(move-mutator/src/coverage.rs lines 117-135): iterate over the indexed
uncovered spans of the function; continue past a span ending at or
before the location's start; break (location counts as covered) when a
span starts after the location's start or ends before the location's
end; otherwise report the location as not covered. -/
def check_location_loop (spans : List Span) (s : Span) : Bool :=
  match spans with
  | [] => true
  | u :: rest =>
    if s.start ≥ u.stop then check_location_loop rest s
    else if u.start > s.start then true
    else if u.stop < s.stop then true
    else false

/-- Coverage (move-mutator/src/coverage.rs): map from qualified function
name to that function's uncovered spans.  The BTreeMap is modelled as an
association list. -/
structure Coverage where
  all_uncovered_spans : List (String × List Span)

/-- Coverage::check_location (coverage.rs lines 109-139): a function with
no entry in the uncovered-spans index is fully covered, so the query
returns true; otherwise run the span loop. -/
def Coverage.check_location (c : Coverage) (associated_fn_name : String) (loc : Span) : Bool :=
  match c.all_uncovered_spans.lookup associated_fn_name with
  | none => true
  | some spans => check_location_loop spans loc

/-- One uncovered location from FunctionSourceCoverage.uncovered_locations:
a file hash (abstracted to Nat) plus the span endpoints. -/
structure UncoveredLoc where
  file_hash : Nat
  start : Nat
  stop : Nat
deriving DecidableEq

/-- slice::windows(2), as the list of adjacent pairs. -/
def windows2 {α : Type} : List α → List (α × α)
  | a :: b :: rest => (a, b) :: windows2 (b :: rest)
  | _ => []

/-- merge_spans (coverage.rs lines 159-175): filter the locations by file
hash, turn them into spans, then fold over the windows of size two,
pushing the merge of the pair when they touch or overlap and the first
element of the pair otherwise. -/
def merge_spans (file_hash : Nat) (uncovered_locations : List UncoveredLoc) : List Span :=
  let spans := (uncovered_locations.filter (fun l => l.file_hash == file_hash)).map
      (fun l => Span.mk l.start l.stop)
  (windows2 spans).foldl
    (fun acc cn => if cn.1.stop ≥ cn.2.start then acc ++ [cn.1.merge cn.2] else acc ++ [cn.1]) []

/-- The character scan inside merge_spans_after_removing_whitespaces
(coverage.rs lines 185-199): walk the characters after the current
span's end; stop with no merge at the first character that is not a
plain space or when the characters run out; merge when the running
index becomes exactly the next span's start. -/
def reach_target_by_spaces : List Char → Nat → Nat → Bool
  | [], _, _ => false
  | c :: cs, i, target =>
    if c ≠ ' ' then false
    else if i + 1 = target then true
    else reach_target_by_spaces cs (i + 1) target

/-- The span loop of merge_spans_after_removing_whitespaces (coverage.rs
lines 182-206), carrying the current span.  Indexing the source at
curr.stop panics in Rust when curr.stop exceeds the text length, which
is modelled as none. -/
def merge_whitespace_loop (source_code : List Char) : Span → List Span → Option (List Span)
  | curr, [] => some [curr]
  | curr, sp :: rest =>
    if source_code.length < curr.stop then none
    else if reach_target_by_spaces (source_code.drop curr.stop) curr.stop sp.start then
      merge_whitespace_loop source_code (curr.merge sp) rest
    else
      Option.map (fun tl => curr :: tl) (merge_whitespace_loop source_code sp rest)

/-- merge_spans_after_removing_whitespaces (coverage.rs lines 178-207).
The function begins with spans.remove(0), which panics on an empty
vector; the panic is modelled as none. -/
def merge_spans_after_removing_whitespaces (spans : List Span) (source_code : List Char) :
    Option (List Span) :=
  match spans with
  | [] => none
  | curr :: rest => merge_whitespace_loop source_code curr rest

/-- UncoveredSpans::new (coverage.rs lines 145-152): merge the function's
uncovered locations, then bridge whitespace-separated runs. -/
def UncoveredSpans.new (file_hash : Nat) (uncovered_locations : List UncoveredLoc)
    (file_contents : List Char) : Option (List Span) :=
  merge_spans_after_removing_whitespaces (merge_spans file_hash uncovered_locations) file_contents

/-- move_model::ast::Operation, restricted to the variants the mutator
inspects; every other variant is collapsed into OtherOperation. -/
inductive Operation where
  | Add | Sub | Mul | Div | Mod
  | BitOr | BitAnd | Xor
  | Shl | Shr
  | Or | And
  | Eq | Neq | Lt | Gt | Le | Ge
  | Not
  | MoveTo | Abort
  | MoveFunction
  | Closure
  | OtherOperation
deriving DecidableEq

/-- move_model::ast::Value, restricted to what the operators inspect.
The source constructor for booleans is Value::Bool; it is renamed
BoolVal here to avoid clashing with the Lean Bool type. -/
inductive Value where
  | Number : Int → Value
  | BoolVal : Bool → Value
  | OtherVal : Value
deriving DecidableEq

mutual
/-- move_model::ast::ExpData, restricted to the shape information the
mutator inspects: the node kind plus the list of sub-expressions.
Node ids and per-node locations are dropped; OtherExp stands for the
remaining variants (Assign, Block, Return, Loop, Quant, Match, ...). -/
inductive ExpData where
  | Call : Operation → ExpList → ExpData
  | Invoke : ExpList → ExpData
  | Lambda : ExpData → ExpData
  | Value : Value → ExpData
  | LocalVar : ExpData
  | SpecBlock : ExpList → ExpData
  | IfElse : ExpData → ExpData → ExpData → ExpData
  | Sequence : ExpList → ExpData
  | OtherExp : ExpList → ExpData
deriving DecidableEq
/-- List of sub-expressions, as a mutual inductive so that structural
recursion over the tree is available. -/
inductive ExpList where
  | nil : ExpList
  | cons : ExpData → ExpList → ExpList
deriving DecidableEq
end

mutual
/-- ExpData::any from move-model: does the predicate hold on this node or
any sub-expression. -/
def ExpData.anyNode (p : ExpData → Bool) : ExpData → Bool
  | .Call op cs => p (.Call op cs) || ExpList.anyNode p cs
  | .Invoke cs => p (.Invoke cs) || ExpList.anyNode p cs
  | .Lambda b => p (.Lambda b) || ExpData.anyNode p b
  | .Value v => p (.Value v)
  | .LocalVar => p .LocalVar
  | .SpecBlock cs => p (.SpecBlock cs) || ExpList.anyNode p cs
  | .IfElse c t e => p (.IfElse c t e) ||
      (ExpData.anyNode p c || (ExpData.anyNode p t || ExpData.anyNode p e))
  | .Sequence cs => p (.Sequence cs) || ExpList.anyNode p cs
  | .OtherExp cs => p (.OtherExp cs) || ExpList.anyNode p cs
/-- any over a list of sub-expressions. -/
def ExpList.anyNode (p : ExpData → Bool) : ExpList → Bool
  | .nil => false
  | .cons e rest => ExpData.anyNode p e || ExpList.anyNode p rest
end

/-- The calls_function closure of BinarySwap::is_commutative
(move-mutator/src/operators/binary_swap.rs lines 51-59): a node is a
function call, closure construction, lambda, or indirect invocation. -/
def calls_function : ExpData → Bool
  | .Call .MoveFunction _ => true
  | .Call .Closure _ => true
  | .Lambda _ => true
  | .Invoke _ => true
  | _ => false

/-- One operand with its location, from operators::ExpLoc. -/
structure ExpLoc where
  exp : ExpData
  loc : Span
deriving DecidableEq

/-- Rust char::is_whitespace, restricted to the ASCII whitespace found in
Move sources. -/
def is_whitespace_char (c : Char) : Bool :=
  c = ' ' || c = '\n' || c = '\t' || c = '\r'

/-- Rust string slicing source[start..stop]: panics (none) unless
start ≤ stop ≤ length. -/
def str_slice (source : List Char) (start stop : Nat) : Option (List Char) :=
  if start ≤ stop ∧ stop ≤ source.length then some ((source.drop start).take (stop - start))
  else none

/-- source[start..].find(not whitespace).map_or(start, start + i): the
index of the first non-whitespace character at or after start, or start
itself when there is none.  Taking the suffix panics (none) when start
exceeds the length. -/
def find_non_ws_from (source : List Char) (start : Nat) : Option Nat :=
  if start ≤ source.length then
    some (match (source.drop start).findIdx? (fun c => !(is_whitespace_char c)) with
      | some i => start + i
      | none => start)
  else none

/-- source[..stop].rfind(not whitespace).map_or(stop, i + 1): one past the
index of the last non-whitespace character before stop, or stop itself
when there is none. -/
def rfind_non_ws_before (source : List Char) (stop : Nat) : Option Nat :=
  if stop ≤ source.length then
    some (match ((source.take stop).reverse.findIdx? (fun c => !(is_whitespace_char c))) with
      | some j => (stop - 1 - j) + 1
      | none => stop)
  else none

/-- String::replace_range(start..stop, repl) after the bounds were already
validated by an earlier slice of the same range. -/
def replace_range (source : List Char) (start stop : Nat) (repl : List Char) : List Char :=
  source.take start ++ repl ++ source.drop stop

/-- report::Mutation: the byte range, operator name and original and
replacement texts recorded for a mutant. -/
structure Mutation where
  changed_place : Span
  operator_name : String
  old_value : List Char
  new_value : List Char
deriving DecidableEq

/-- operator::MutantInfo: the full mutated file text plus the Mutation
record. -/
structure MutantInfo where
  mutated_source : List Char
  mutation : Mutation
deriving DecidableEq

/-- The binary swap mutation operator (binary_swap.rs lines 20-36). -/
structure BinarySwap where
  operation : Operation
  loc : Span
  exps : List ExpLoc
deriving DecidableEq

/-- BinarySwap::is_commutative (binary_swap.rs lines 39-73): for the
listed operations, return false as soon as some operand subtree
contains a call, closure, lambda or invoke; in every other case,
including operations such as Sub that are not in the list, fall through
to true. -/
def BinarySwap.is_commutative (b : BinarySwap) : Bool :=
  match b.operation with
  | .Add | .Mul | .Eq | .Neq | .BitOr | .BitAnd | .Or | .And | .Xor =>
    !(b.exps.any (fun el => el.exp.anyNode calls_function))
  | _ => true

/-- BinarySwap::apply (binary_swap.rs lines 77-135).  Rust string-slice
panics are modelled as none; a non-panicking run returns some list. -/
def BinarySwap.apply (b : BinarySwap) (source : List Char) : Option (List MutantInfo) :=
  match b.exps with
  | [l, r] =>
    if b.is_commutative then some []
    else
      match find_non_ws_from source l.loc.stop with
      | none => none
      | some opStart =>
        match rfind_non_ws_before source r.loc.start with
        | none => none
        | some opStop =>
          match str_slice source opStart opStop with
          | none => none
          | some binop_str =>
            match str_slice source l.loc.start r.loc.stop with
            | none => none
            | some cur_op =>
              match str_slice source l.loc.start l.loc.stop with
              | none => none
              | some left_str =>
                match str_slice source r.loc.start r.loc.stop with
                | none => none
                | some right_str =>
                  let op := right_str ++ [' '] ++ binop_str ++ [' '] ++ left_str
                  let mutated_source := replace_range source l.loc.start r.loc.stop op
                  some [MutantInfo.mk mutated_source
                    (Mutation.mk (Span.mk l.loc.start r.loc.stop) "binary_operator_swap"
                      cur_op op)]
  | _ => some []

/-- The binary replacement mutation operator
(move-mutator/src/operators/binary.rs lines 20-36). -/
structure Binary where
  operation : Operation
  loc : Span
  exps : List ExpLoc
deriving DecidableEq

/-- contains_value_zero (binary.rs lines 175-180): the operand expression
is itself a numeric literal equal to zero. -/
def contains_value_zero : ExpData → Bool
  | .Value (.Number n) => n == 0
  | _ => false

/-- The equivalence-class table of Binary::apply (binary.rs lines 74-91):
replacements are drawn only from the class of the original operation. -/
def ops_class : Operation → List Operation
  | .Add | .Sub | .Mul | .Div | .Mod => [.Add, .Sub, .Mul, .Div, .Mod]
  | .BitOr | .BitAnd | .Xor => [.BitOr, .BitAnd, .Xor]
  | .Shl | .Shr => [.Shl, .Shr]
  | .Or | .And => [.Or, .And]
  | .Eq | .Neq | .Lt | .Gt | .Le | .Ge => [.Eq, .Neq, .Lt, .Gt, .Le, .Ge]
  | _ => []

/-- The zero-literal suppression filter of Binary::apply (binary.rs lines
100-123), arm by arm in source order. -/
def zero_exclusion_filter (operation : Operation) (is_left_exp_zero is_right_exp_zero : Bool)
    (v : Operation) : Bool :=
  if operation = .Eq ∧ is_right_exp_zero = true ∧ v = .Le then false
  else if operation = .Eq ∧ is_left_exp_zero = true ∧ v = .Ge then false
  else if operation = .Neq ∧ is_right_exp_zero = true ∧ v = .Gt then false
  else if operation = .Neq ∧ is_left_exp_zero = true ∧ v = .Lt then false
  else if operation = .Gt ∧ is_right_exp_zero = true ∧ v = .Neq then false
  else if operation = .Lt ∧ is_left_exp_zero = true ∧ v = .Neq then false
  else true

/-- Operation::to_string_if_binop from move-model: the surface token of a
binary operation, none for anything that is not a binary operation. -/
def to_string_if_binop : Operation → Option (List Char)
  | .Add => some ['+']
  | .Sub => some ['-']
  | .Mul => some ['*']
  | .Div => some ['/']
  | .Mod => some ['%']
  | .BitOr => some ['|']
  | .BitAnd => some ['&']
  | .Xor => some ['^']
  | .Shl => some ['<', '<']
  | .Shr => some ['>', '>']
  | .Or => some ['|', '|']
  | .And => some ['&', '&']
  | .Eq => some ['=', '=']
  | .Neq => some ['!', '=']
  | .Lt => some ['<']
  | .Gt => some ['>']
  | .Le => some ['<', '=']
  | .Ge => some ['>', '=']
  | _ => none

/-- check_compound_assignment (binary.rs lines 158-173): the extracted
operator token starts with the compound-assignment rendering of the
operation; relational and logical operations always give false. -/
def check_compound_assignment (op : Operation) (target_operation : List Char) : Bool :=
  match op with
  | .Add => List.isPrefixOf ['+', '='] target_operation
  | .Sub => List.isPrefixOf ['-', '='] target_operation
  | .Mul => List.isPrefixOf ['*', '='] target_operation
  | .Div => List.isPrefixOf ['/', '='] target_operation
  | .Mod => List.isPrefixOf ['%', '='] target_operation
  | .BitOr => List.isPrefixOf ['|', '='] target_operation
  | .BitAnd => List.isPrefixOf ['&', '='] target_operation
  | .Xor => List.isPrefixOf ['^', '='] target_operation
  | .Shl => List.isPrefixOf ['<', '<', '='] target_operation
  | .Shr => List.isPrefixOf ['>', '>', '='] target_operation
  | _ => false

/-- The map-and-collect over surviving replacements at the end of
Binary::apply (binary.rs lines 124-146); the expect on
to_string_if_binop is a potential panic, modelled as none. -/
def map_mutants (f : Operation → Option MutantInfo) : List Operation → Option (List MutantInfo)
  | [] => some []
  | v :: rest =>
    match f v with
    | none => none
    | some m =>
      match map_mutants f rest with
      | none => none
      | some ms => some (m :: ms)

/-- Binary::apply (binary.rs lines 39-147): requires exactly two operands,
skips candidates whose operand locations are identical (the for-loop
corner case), extracts the operator token between the operand spans,
then emits one mutant per replacement surviving the class and
zero-literal filters. -/
def Binary.apply (b : Binary) (source : List Char) : Option (List MutantInfo) :=
  match b.exps with
  | [l, r] =>
    if l.loc = r.loc then some []
    else
      match find_non_ws_from source l.loc.stop with
      | none => none
      | some opStart =>
        match rfind_non_ws_before source r.loc.start with
        | none => none
        | some opStop =>
          match str_slice source opStart opStop with
          | none => none
          | some cur_op =>
            let is_compound_assignment := check_compound_assignment b.operation cur_op
            let is_left_exp_zero := contains_value_zero l.exp
            let is_right_exp_zero := contains_value_zero r.exp
            let survivors := ((ops_class b.operation).filter (fun v => b.operation ≠ v)).filter
                (zero_exclusion_filter b.operation is_left_exp_zero is_right_exp_zero)
            map_mutants (fun v =>
              match to_string_if_binop v with
              | none => none
              | some base =>
                let new_op := if is_compound_assignment then base ++ ['='] else base
                some (MutantInfo.mk (replace_range source opStart opStop new_op)
                  (Mutation.mk (Span.mk opStart opStop) "binary_operator_replacement"
                    cur_op new_op))) survivors
  | _ => some []

/-- usize::div_ceil from Rust: quotient rounded up. -/
def rust_div_ceil (a b : Nat) : Nat := a / b + if a % b = 0 then 0 else 1

/-- The keep count of the downsampling block of run_move_mutator
(move-mutator/src/lib.rs lines 140-143):
total_mutants.saturating_sub((total_mutants * percentage).div_ceil(100)).
Nat subtraction is exactly saturating_sub. -/
def no_of_mutants_to_keep (total_mutants percentage : Nat) : Nat :=
  total_mutants - rust_div_ceil (total_mutants * percentage) 100

/-- The operator-mode filter predicate of run_move_mutator (lib.rs lines
159-169): keep every mutant when no mutation configuration or an empty
operator list is present, otherwise keep a mutant iff its operator name
is in the configured list. -/
def operator_filter_keeps (operators : Option (List String)) (m : MutantInfo) : Bool :=
  match operators with
  | none => true
  | some ops => if ops = [] then true else ops.contains m.mutation.operator_name

/-- The intermediate mutant lists of one run_move_mutator run (lib.rs
lines 108-216), in the order the code produces them. -/
structure MutatorRun where
  generated : List MutantInfo
  sampling_input : List MutantInfo
  after_downsampling : List MutantInfo
  after_operator_filter : List MutantInfo

/-- The stage structure of run_move_mutator (lib.rs lines 108-216):
the generated mutants are fed to the downsampling block (lines 136-155)
first, and the operator-mode filter (lines 157-169) runs afterwards on
the downsampled list.  choose_multiple abstracts
rand::seq::SliceRandom::choose_multiple, the random selection without
replacement; its length behaviour is assumed where a theorem needs it. -/
def run_move_mutator_stages (generated : List MutantInfo)
    (downsampling_ratio_percentage : Option Nat)
    (choose_multiple : List MutantInfo → Nat → List MutantInfo)
    (operators : Option (List String)) : MutatorRun :=
  let sampling_input := generated
  let after_downsampling :=
    match downsampling_ratio_percentage with
    | none => sampling_input
    | some percentage =>
        choose_multiple sampling_input (no_of_mutants_to_keep sampling_input.length percentage)
  let after_operator_filter := after_downsampling.filter (operator_filter_keeps operators)
  MutatorRun.mk generated sampling_input after_downsampling after_operator_filter

/-- Events of one move-mutation-test run, used to record the order of the
orchestrator's actions. -/
inductive OrchestratorEvent where
  | baseline_test_run : OrchestratorEvent
  | mutant_generated : String → OrchestratorEvent
  | mutant_executed : String → OrchestratorEvent
deriving DecidableEq

/-- mutator_common::report::MiniReport, reduced to the fields the report
aggregation reads. -/
structure MiniReport where
  qname : String
  killed : Bool
deriving DecidableEq

/-- The external facts one run of move-mutation-test depends on: whether
the unmodified project passes the test suite, which mutants the mutator
would produce, and which of them the oracle kills. -/
structure TestWorld where
  baseline_passes : Bool
  mutants : List String
  oracle_kills : String → Bool

/-- run_tests_on_original_code
(move-mutation-test/src/mutation_test.rs lines 27-60): error iff the
unmodified project fails its test suite. -/
def run_tests_on_original_code (w : TestWorld) : Except String Unit :=
  if w.baseline_passes then Except.ok ()
  else Except.error "Test suite is failing for the original code!"

/-- Control-flow skeleton of run_mutation_test
(move-mutation-test/src/lib.rs lines 47-254): the baseline run at line
72 is followed by the question-mark operator, so an error there returns
immediately; only on success does the run reach mutant generation (line
89), mutant execution (lines 128-206) and report construction (lines
214-235).  The event list records which actions were performed. -/
def run_mutation_test (w : TestWorld) :
    List OrchestratorEvent × Except String (List MiniReport) :=
  match run_tests_on_original_code w with
  | Except.error e => ([OrchestratorEvent.baseline_test_run], Except.error e)
  | Except.ok () =>
    let events := [OrchestratorEvent.baseline_test_run]
        ++ w.mutants.map (fun m => OrchestratorEvent.mutant_generated m)
        ++ w.mutants.map (fun m => OrchestratorEvent.mutant_executed m)
    let reports := w.mutants.map (fun m => MiniReport.mk m (w.oracle_kills m))
    (events, Except.ok reports)

/-- The state threaded through the visit_pre_post closure of
traverse_function (move-mutator/src/mutate.rs lines 149-173): the
is_inside_spec flag plus the nodes handed to
parse_expression_and_find_mutants so far. -/
structure TraversalState where
  is_inside_spec : Bool
  dispatched : List ExpData
deriving DecidableEq

/-- Is the node a specification block. -/
def is_spec_block : ExpData → Bool
  | .SpecBlock _ => true
  | _ => false

/-- One invocation of the closure passed to visit_pre_post (mutate.rs
lines 152-172): first the SpecBlock arm sets is_inside_spec to the
negation of the ascending flag, then ascending visits and visits inside
a spec block return without dispatching, then the coverage check may
skip the node, and otherwise the node is dispatched to
parse_expression_and_find_mutants. -/
def visit_node (check_coverage : ExpData → Bool) (asc : Bool) (e : ExpData)
    (s : TraversalState) : TraversalState :=
  let s1 := if is_spec_block e then TraversalState.mk (!asc) s.dispatched else s
  if asc || s1.is_inside_spec then s1
  else if !(check_coverage e) then s1
  else TraversalState.mk s1.is_inside_spec (s1.dispatched ++ [e])

mutual
/-- ExpData::visit_pre_post from move-model, specialised to the closure of
traverse_function: call the closure on descent, traverse the
sub-expressions, call the closure on ascent.  The closure always
returns true in the source, so traversal never stops early. -/
def visit_pre_post (cov : ExpData → Bool) (s : TraversalState) : ExpData → TraversalState
  | .Call op cs =>
      visit_node cov true (.Call op cs)
        (visit_list cov (visit_node cov false (.Call op cs) s) cs)
  | .Invoke cs =>
      visit_node cov true (.Invoke cs)
        (visit_list cov (visit_node cov false (.Invoke cs) s) cs)
  | .Lambda b =>
      visit_node cov true (.Lambda b)
        (visit_pre_post cov (visit_node cov false (.Lambda b) s) b)
  | .Value v => visit_node cov true (.Value v) (visit_node cov false (.Value v) s)
  | .LocalVar => visit_node cov true .LocalVar (visit_node cov false .LocalVar s)
  | .SpecBlock cs =>
      visit_node cov true (.SpecBlock cs)
        (visit_list cov (visit_node cov false (.SpecBlock cs) s) cs)
  | .IfElse c t e =>
      visit_node cov true (.IfElse c t e)
        (visit_pre_post cov
          (visit_pre_post cov
            (visit_pre_post cov (visit_node cov false (.IfElse c t e) s) c) t) e)
  | .Sequence cs =>
      visit_node cov true (.Sequence cs)
        (visit_list cov (visit_node cov false (.Sequence cs) s) cs)
  | .OtherExp cs =>
      visit_node cov true (.OtherExp cs)
        (visit_list cov (visit_node cov false (.OtherExp cs) s) cs)
/-- visit_pre_post over a list of sub-expressions, left to right. -/
def visit_list (cov : ExpData → Bool) (s : TraversalState) : ExpList → TraversalState
  | .nil => s
  | .cons c cs => visit_list cov (visit_pre_post cov s c) cs
end

/-- The body-traversal part of traverse_function (mutate.rs lines
148-174): run the visitor over the function body starting outside any
spec block with nothing dispatched. -/
def traverse_function (cov : ExpData → Bool) (body : ExpData) : TraversalState :=
  visit_pre_post cov (TraversalState.mk false []) body

/-- Coverage predicate of a function with full coverage: every location
passes the check (per Coverage::check_location, a function absent from
the uncovered index is fully covered). -/
def full_coverage : ExpData → Bool := fun _ => true

mutual
/-- All nodes of the tree, root included. -/
def all_nodes : ExpData → List ExpData
  | .Call op cs => .Call op cs :: all_nodes_list cs
  | .Invoke cs => .Invoke cs :: all_nodes_list cs
  | .Lambda b => .Lambda b :: all_nodes b
  | .Value v => [.Value v]
  | .LocalVar => [.LocalVar]
  | .SpecBlock cs => .SpecBlock cs :: all_nodes_list cs
  | .IfElse c t e => .IfElse c t e :: (all_nodes c ++ all_nodes t ++ all_nodes e)
  | .Sequence cs => .Sequence cs :: all_nodes_list cs
  | .OtherExp cs => .OtherExp cs :: all_nodes_list cs
/-- all_nodes over a list of sub-expressions. -/
def all_nodes_list : ExpList → List ExpData
  | .nil => []
  | .cons c cs => all_nodes c ++ all_nodes_list cs
end

mutual
/-- All strict descendants of specification blocks: the nodes that lie
inside at least one spec block of the tree. -/
def inside_spec_nodes : ExpData → List ExpData
  | .Call _ cs => inside_spec_nodes_list cs
  | .Invoke cs => inside_spec_nodes_list cs
  | .Lambda b => inside_spec_nodes b
  | .Value _ => []
  | .LocalVar => []
  | .SpecBlock cs => all_nodes_list cs
  | .IfElse c t e => inside_spec_nodes c ++ inside_spec_nodes t ++ inside_spec_nodes e
  | .Sequence cs => inside_spec_nodes_list cs
  | .OtherExp cs => inside_spec_nodes_list cs
/-- inside_spec_nodes over a list of sub-expressions. -/
def inside_spec_nodes_list : ExpList → List ExpData
  | .nil => []
  | .cons c cs => inside_spec_nodes c ++ inside_spec_nodes_list cs
end

mutual
/-- Does the tree contain a specification block anywhere. -/
def contains_spec : ExpData → Bool
  | .Call _ cs => contains_spec_list cs
  | .Invoke cs => contains_spec_list cs
  | .Lambda b => contains_spec b
  | .Value _ => false
  | .LocalVar => false
  | .SpecBlock _ => true
  | .IfElse c t e => contains_spec c || contains_spec t || contains_spec e
  | .Sequence cs => contains_spec_list cs
  | .OtherExp cs => contains_spec_list cs
/-- contains_spec over a list of sub-expressions. -/
def contains_spec_list : ExpList → Bool
  | .nil => false
  | .cons c cs => contains_spec c || contains_spec_list cs
end

mutual
/-- No specification block of the tree has another specification block
among its descendants. -/
def no_nested_specs : ExpData → Bool
  | .Call _ cs => no_nested_specs_list cs
  | .Invoke cs => no_nested_specs_list cs
  | .Lambda b => no_nested_specs b
  | .Value _ => true
  | .LocalVar => true
  | .SpecBlock cs => !(contains_spec_list cs)
  | .IfElse c t e => no_nested_specs c && no_nested_specs t && no_nested_specs e
  | .Sequence cs => no_nested_specs_list cs
  | .OtherExp cs => no_nested_specs_list cs
/-- no_nested_specs over a list of sub-expressions. -/
def no_nested_specs_list : ExpList → Bool
  | .nil => true
  | .cons c cs => no_nested_specs c && no_nested_specs_list cs
end

mutual
/-- Reference traversal for the spec-exclusion rule: a pre-order walk that
skips every specification-block subtree in full and otherwise records
the nodes passing the coverage check, in visit order. -/
def spec_skipping_dispatch (cov : ExpData → Bool) : ExpData → List ExpData
  | .Call op cs => (if cov (.Call op cs) then [ExpData.Call op cs] else []) ++
      spec_skipping_list cov cs
  | .Invoke cs => (if cov (.Invoke cs) then [ExpData.Invoke cs] else []) ++
      spec_skipping_list cov cs
  | .Lambda b => (if cov (.Lambda b) then [ExpData.Lambda b] else []) ++
      spec_skipping_dispatch cov b
  | .Value v => if cov (.Value v) then [ExpData.Value v] else []
  | .LocalVar => if cov .LocalVar then [ExpData.LocalVar] else []
  | .SpecBlock _ => []
  | .IfElse c t e => (if cov (.IfElse c t e) then [ExpData.IfElse c t e] else []) ++
      (spec_skipping_dispatch cov c ++ spec_skipping_dispatch cov t ++
        spec_skipping_dispatch cov e)
  | .Sequence cs => (if cov (.Sequence cs) then [ExpData.Sequence cs] else []) ++
      spec_skipping_list cov cs
  | .OtherExp cs => (if cov (.OtherExp cs) then [ExpData.OtherExp cs] else []) ++
      spec_skipping_list cov cs
/-- spec_skipping_dispatch over a list of sub-expressions. -/
def spec_skipping_list (cov : ExpData → Bool) : ExpList → List ExpData
  | .nil => []
  | .cons c cs => spec_skipping_dispatch cov c ++ spec_skipping_list cov cs
end

lemma check_location_loop_eq_false_iff (spans : List Span) (s : Span)
    (hsorted : List.Pairwise (fun u v => u.stop ≤ v.start) spans) :
    check_location_loop spans s = false ↔
      ∃ u ∈ spans, u.start ≤ s.start ∧ s.start < u.stop ∧ s.stop ≤ u.stop := by
  induction spans with
  | nil => simp [check_location_loop]
  | cons u rest ih =>
    rw [List.pairwise_cons] at hsorted
    obtain ⟨hu, hrest⟩ := hsorted
    rw [check_location_loop]
    split
    case isTrue hskip =>
      rw [ih hrest]
      constructor
      · rintro ⟨w, hw, h1, h2, h3⟩
        exact ⟨w, List.mem_cons_of_mem _ hw, h1, h2, h3⟩
      · rintro ⟨w, hw, h1, h2, h3⟩
        rcases List.mem_cons.mp hw with heq | hw'
        · subst heq; omega
        · exact ⟨w, hw', h1, h2, h3⟩
    case isFalse hskip =>
      split
      case isTrue hbreak =>
        simp only [Bool.true_eq_false, false_iff]
        rintro ⟨w, hw, h1, h2, h3⟩
        rcases List.mem_cons.mp hw with heq | hw'
        · subst heq; omega
        · have := hu w hw'; omega
      case isFalse hbreak =>
        split
        case isTrue hbreak2 =>
          simp only [Bool.true_eq_false, false_iff]
          rintro ⟨w, hw, h1, h2, h3⟩
          rcases List.mem_cons.mp hw with heq | hw'
          · subst heq; omega
          · have := hu w hw'; omega
        case isFalse hbreak2 =>
          simp only [true_iff]
          exact ⟨u, List.mem_cons_self u rest, by omega, by omega, by omega⟩

/-- Claim C1, amended.  The index stores uncovered spans, so absence of an
entry means the function is fully covered: the query returns true and
candidates are generated for it.  For a function with an entry whose
span list is sorted and non-overlapping, the query returns false (not
covered) iff the location's span is contained in some indexed uncovered
span with the location's start strictly before that span's end — a
containment test, not a strict-overlap test. -/
theorem C1_coverage_query_semantics (c : Coverage) (fn : String) (loc : Span) :
    (c.all_uncovered_spans.lookup fn = none → c.check_location fn loc = true)
    ∧ (∀ spans, c.all_uncovered_spans.lookup fn = some spans →
        List.Pairwise (fun u v => u.stop ≤ v.start) spans →
        (c.check_location fn loc = false ↔
          ∃ u ∈ spans, u.start ≤ loc.start ∧ loc.start < u.stop ∧ loc.stop ≤ u.stop)) := by
  constructor
  · intro h
    simp [Coverage.check_location, h]
  · intro spans hs hsorted
    rw [Coverage.check_location, hs]
    exact check_location_loop_eq_false_iff spans loc hsorted

/-- Claim C1 witness: a location contained in an indexed uncovered span of
a function with an entry is reported as not covered. -/
theorem C1_coverage_query_semantics_witness :
    (Coverage.mk [("m::f", [Span.mk 10 20])]).check_location "m::f" (Span.mk 12 18) = false :=
  ((C1_coverage_query_semantics (Coverage.mk [("m::f", [Span.mk 10 20])]) "m::f"
      (Span.mk 12 18)).2 [Span.mk 10 20] (by decide) (by simp)).mpr
    ⟨Span.mk 10 20, by simp, by decide, by decide, by decide⟩

/-- Claim C1 counterexample: for a function with no entry in the index the
query returns true (covered), not "not covered" as the claim states,
and the traversal therefore dispatches the function's nodes, so
mutation candidates are generated. -/
theorem C1_counterexample :
    Coverage.check_location (Coverage.mk []) "m::f" (Span.mk 0 5) = true
    ∧ (traverse_function
        (fun _ => Coverage.check_location (Coverage.mk []) "m::f" (Span.mk 0 5))
        (ExpData.Call .Add .nil)).dispatched = [ExpData.Call .Add .nil] := by
  decide

/-- Claim C2, code-bug evaluation: for the non-commutative subtraction
a - b with two operands of distinct spans, the claim requires exactly
one swapped mutant, but BinarySwap::is_commutative falls through to
true for every operation outside its listed set, so apply returns no
mutants at all. -/
theorem C2_sub_swap_generates_no_mutant :
    (BinarySwap.mk .Sub (Span.mk 0 5)
      [ExpLoc.mk .LocalVar (Span.mk 0 1), ExpLoc.mk .LocalVar (Span.mk 4 5)]).is_commutative
        = true
    ∧ (BinarySwap.mk .Sub (Span.mk 0 5)
      [ExpLoc.mk .LocalVar (Span.mk 0 1), ExpLoc.mk .LocalVar (Span.mk 4 5)]).apply
        ['a', ' ', '-', ' ', 'b'] = some [] := by
  decide

/-- Claim C4, code-bug evaluation: merge_spans folds over windows of size
two, so with two disjoint spans the second span is dropped from the
output, a single span produces an empty output, and an overlapping
chain of three spans yields two still-overlapping spans instead of one
merged run. -/
theorem C4_merge_spans_loses_spans :
    merge_spans 0 [UncoveredLoc.mk 0 0 5, UncoveredLoc.mk 0 10 15] = [Span.mk 0 5]
    ∧ Span.mk 10 15 ∉ merge_spans 0 [UncoveredLoc.mk 0 0 5, UncoveredLoc.mk 0 10 15]
    ∧ merge_spans 0 [UncoveredLoc.mk 0 0 5] = []
    ∧ merge_spans 0 [UncoveredLoc.mk 0 0 5, UncoveredLoc.mk 0 4 10, UncoveredLoc.mk 0 9 15]
        = [Span.mk 0 10, Span.mk 4 15] := by
  decide

/-- Claim C5, code-bug evaluation: BinarySwap::apply has no guard for
identical operand spans; on a candidate with identical spans that
reaches the slicing code (a listed operation whose operand contains a
call, making is_commutative false), the operator-token slice runs from
the left span's end to the right span's start, an inverted range, and
the Rust code panics — modelled as none instead of the zero-mutant
success the claim requires. -/
theorem C5_identical_spans_panic :
    (BinarySwap.mk .Add (Span.mk 0 4)
      [ExpLoc.mk (.Call .MoveFunction .nil) (Span.mk 0 4),
       ExpLoc.mk (.Call .MoveFunction .nil) (Span.mk 0 4)]).apply
      ['f', '(', 'x', ')'] = none := by
  decide

/-- Claim C10, code-bug evaluation: with exactly one uncovered location,
or with every location filtered out by file hash, merge_spans returns
an empty list and merge_spans_after_removing_whitespaces then panics on
spans.remove(0) — modelled as none — so index construction is not
total. -/
theorem C10_uncovered_spans_construction_panics :
    UncoveredSpans.new 0 [UncoveredLoc.mk 0 0 5] ['a', 'b', 'c', 'd', 'e'] = none
    ∧ UncoveredSpans.new 0 [UncoveredLoc.mk 1 0 5] ['a', 'b', 'c', 'd', 'e'] = none := by
  decide

/-- Claim C3 counterexample: with a configured downsampling percentage,
the list submitted to random sampling is the full generated list, so it
can contain a mutant whose operator the mode filter would discard —
here a binary_operator_swap mutant while only delete_statement is
active. -/
theorem C3_counterexample :
    MutantInfo.mk [] (Mutation.mk (Span.mk 0 1) "binary_operator_swap" [] [])
      ∈ (run_move_mutator_stages
          [MutantInfo.mk [] (Mutation.mk (Span.mk 0 1) "binary_operator_swap" [] [])]
          (some 0) (fun l _ => l) (some ["delete_statement"])).sampling_input
    ∧ operator_filter_keeps (some ["delete_statement"])
        (MutantInfo.mk [] (Mutation.mk (Span.mk 0 1) "binary_operator_swap" [] [])) = false := by
  decide

/-- Claim C3, amended.  Downsampling runs after mutant generation but
before the operator-mode filter, not after it: the sampling input is
the full generated list, and the filter is applied to the downsampled
list, so every finally retained mutant comes from the downsampled list
and has an operator in the active set.  Both stages still precede
verification and execution. -/
theorem C3_downsampling_before_filter (generated : List MutantInfo) (p : Nat)
    (choose_multiple : List MutantInfo → Nat → List MutantInfo)
    (operators : Option (List String)) :
    (run_move_mutator_stages generated (some p) choose_multiple operators).sampling_input
        = generated
    ∧ (run_move_mutator_stages generated (some p) choose_multiple operators).after_operator_filter
        = ((run_move_mutator_stages generated (some p) choose_multiple
            operators).after_downsampling).filter (operator_filter_keeps operators)
    ∧ (∀ m ∈ (run_move_mutator_stages generated (some p) choose_multiple
          operators).after_operator_filter,
        m ∈ (run_move_mutator_stages generated (some p) choose_multiple
          operators).after_downsampling
        ∧ operator_filter_keeps operators m = true) := by
  refine ⟨rfl, rfl, ?_⟩
  intro m hm
  exact ⟨List.mem_of_mem_filter hm, List.of_mem_filter hm⟩

/-- Claim C3 witness: in a concrete run, the mutant surviving the filter
is an element of the downsampled list and its operator is active. -/
theorem C3_downsampling_before_filter_witness :
    MutantInfo.mk [] (Mutation.mk (Span.mk 0 1) "delete_statement" [] [])
      ∈ (run_move_mutator_stages
          [MutantInfo.mk [] (Mutation.mk (Span.mk 0 1) "delete_statement" [] []),
           MutantInfo.mk [] (Mutation.mk (Span.mk 0 1) "binary_operator_swap" [] [])]
          (some 0) (fun l _ => l) (some ["delete_statement"])).after_downsampling
    ∧ operator_filter_keeps (some ["delete_statement"])
        (MutantInfo.mk [] (Mutation.mk (Span.mk 0 1) "delete_statement" [] [])) = true :=
  (C3_downsampling_before_filter
      [MutantInfo.mk [] (Mutation.mk (Span.mk 0 1) "delete_statement" [] []),
       MutantInfo.mk [] (Mutation.mk (Span.mk 0 1) "binary_operator_swap" [] [])]
      0 (fun l _ => l) (some ["delete_statement"])).2.2
    (MutantInfo.mk [] (Mutation.mk (Span.mk 0 1) "delete_statement" [] [])) (by decide)

lemma rust_div_ceil_eq_ceil (a : ℕ) :
    (rust_div_ceil a 100 : ℤ) = ⌈((a : ℚ)) / ((100 : ℕ) : ℚ)⌉ := by
  have h : ((a : ℚ)) / ((100 : ℕ) : ℚ) = -(((-(a : ℤ) : ℤ) : ℚ) / ((100 : ℕ) : ℚ)) := by
    push_cast; ring
  rw [h, Int.ceil_neg, Rat.floor_intCast_div_natCast]
  unfold rust_div_ceil
  split <;> omega

lemma rust_div_ceil_mul_le (N p : ℕ) (hp : p ≤ 100) : rust_div_ceil (N * p) 100 ≤ N := by
  have h1 : N * p ≤ N * 100 := Nat.mul_le_mul_left N hp
  unfold rust_div_ceil
  split <;> omega

/-- Claim C7: for every generated-mutant count N up to 10000 and every
percentage p up to 100, the downsampling block keeps exactly
max(0, N - ceil(N*p/100)) mutants; choose_multiple abstracts
rand's uniform random sampling without replacement, assumed only to
return the requested number of elements, drawn without replacement
(a sub-permutation of its input). -/
theorem C7_downsampling_keep_count (mutants : List MutantInfo) (p : Nat)
    (choose_multiple : List MutantInfo → Nat → List MutantInfo)
    (_hlen : mutants.length ≤ 10000) (hp : p ≤ 100)
    (hchoose_len : ∀ l k, k ≤ l.length → (choose_multiple l k).length = k)
    (hchoose_sub : ∀ l k, List.Subperm (choose_multiple l k) l) :
    List.Subperm
      (run_move_mutator_stages mutants (some p) choose_multiple none).after_downsampling
      mutants
    ∧ (((run_move_mutator_stages mutants (some p) choose_multiple
          none).after_downsampling.length : ℤ)
        = max 0 ((mutants.length : ℤ)
            - ⌈((mutants.length * p : ℕ) : ℚ) / ((100 : ℕ) : ℚ)⌉)) := by
  constructor
  · exact hchoose_sub mutants (no_of_mutants_to_keep mutants.length p)
  · have hd : rust_div_ceil (mutants.length * p) 100 ≤ mutants.length :=
      rust_div_ceil_mul_le mutants.length p hp
    have hkeep : no_of_mutants_to_keep mutants.length p ≤ mutants.length := by
      unfold no_of_mutants_to_keep; omega
    have hlen2 : (run_move_mutator_stages mutants (some p) choose_multiple
        none).after_downsampling.length = no_of_mutants_to_keep mutants.length p := by
      unfold run_move_mutator_stages
      exact hchoose_len mutants _ hkeep
    rw [hlen2, ← rust_div_ceil_eq_ceil]
    unfold no_of_mutants_to_keep
    omega

/-- Claim C7 witness: ten generated mutants downsampled at 25 percent keep
exactly 7 = max(0, 10 - ceil(10*25/100)) mutants. -/
theorem C7_downsampling_keep_count_witness :
    (((run_move_mutator_stages
        (List.replicate 10 (MutantInfo.mk [] (Mutation.mk (Span.mk 0 1) "delete_statement" [] [])))
        (some 25) (fun l k => l.take k) none).after_downsampling.length : ℤ)
      = max 0
          (((List.replicate 10
              (MutantInfo.mk [] (Mutation.mk (Span.mk 0 1) "delete_statement" [] []))).length : ℤ)
            - ⌈(((List.replicate 10
                (MutantInfo.mk [] (Mutation.mk (Span.mk 0 1)
                  "delete_statement" [] []))).length * 25 : ℕ) : ℚ) / ((100 : ℕ) : ℚ)⌉)) :=
  (C7_downsampling_keep_count
      (List.replicate 10 (MutantInfo.mk [] (Mutation.mk (Span.mk 0 1) "delete_statement" [] [])))
      25 (fun l k => l.take k) (by simp) (by omega)
      (fun l k hk => by simp [List.length_take]; omega)
      (fun l k => (List.take_sublist k l).subperm)).2

/-- Claim C8: when the unmodified project fails the baseline test run, the
whole run aborts with the baseline error: the only recorded event is
the baseline test run itself — no mutant is generated or executed — and
no report entries are produced. -/
theorem C8_baseline_failure_aborts (w : TestWorld) (h : w.baseline_passes = false) :
    run_mutation_test w = ([OrchestratorEvent.baseline_test_run],
        Except.error "Test suite is failing for the original code!")
    ∧ (∀ ev ∈ (run_mutation_test w).1, ev = OrchestratorEvent.baseline_test_run)
    ∧ (∀ reports, (run_mutation_test w).2 ≠ Except.ok reports) := by
  have hrun : run_mutation_test w = ([OrchestratorEvent.baseline_test_run],
      Except.error "Test suite is failing for the original code!") := by
    simp [run_mutation_test, run_tests_on_original_code, h]
  refine ⟨hrun, ?_, ?_⟩
  · intro ev hev
    rw [hrun] at hev
    simpa using hev
  · intro reports
    rw [hrun]
    simp

/-- Claim C8 witness: a concrete world with a failing baseline and one
pending mutant aborts with the baseline error. -/
theorem C8_baseline_failure_aborts_witness :
    run_mutation_test (TestWorld.mk false ["m::f"] (fun _ => true))
      = ([OrchestratorEvent.baseline_test_run],
          Except.error "Test suite is failing for the original code!") :=
  (C8_baseline_failure_aborts (TestWorld.mk false ["m::f"] (fun _ => true)) rfl).1

lemma visit_node_non_spec_inside (cov : ExpData → Bool) (asc : Bool) (e : ExpData)
    (s : TraversalState) (hne : is_spec_block e = false) (hs : s.is_inside_spec = true) :
    visit_node cov asc e s = s := by
  unfold visit_node
  rw [hne]
  simp [hs]

lemma visit_node_non_spec_asc (cov : ExpData → Bool) (e : ExpData) (s : TraversalState)
    (hne : is_spec_block e = false) :
    visit_node cov true e s = s := by
  unfold visit_node
  rw [hne]
  simp

mutual
theorem visit_spec_free_inside (cov : ExpData → Bool) (e : ExpData)
    (h : contains_spec e = false) (s : TraversalState) (hs : s.is_inside_spec = true) :
    visit_pre_post cov s e = s := by
  cases e with
  | Call op cs =>
    have hne : is_spec_block (.Call op cs) = false := rfl
    rw [visit_pre_post, visit_node_non_spec_inside cov false _ s hne hs,
      visit_list_spec_free_inside cov cs (by simpa [contains_spec] using h) s hs,
      visit_node_non_spec_asc cov _ s hne]
  | Invoke cs =>
    have hne : is_spec_block (.Invoke cs) = false := rfl
    rw [visit_pre_post, visit_node_non_spec_inside cov false _ s hne hs,
      visit_list_spec_free_inside cov cs (by simpa [contains_spec] using h) s hs,
      visit_node_non_spec_asc cov _ s hne]
  | Lambda b =>
    have hne : is_spec_block (.Lambda b) = false := rfl
    rw [visit_pre_post, visit_node_non_spec_inside cov false _ s hne hs,
      visit_spec_free_inside cov b (by simpa [contains_spec] using h) s hs,
      visit_node_non_spec_asc cov _ s hne]
  | Value v =>
    have hne : is_spec_block (.Value v) = false := rfl
    rw [visit_pre_post, visit_node_non_spec_inside cov false _ s hne hs,
      visit_node_non_spec_asc cov _ s hne]
  | LocalVar =>
    have hne : is_spec_block .LocalVar = false := rfl
    rw [visit_pre_post, visit_node_non_spec_inside cov false _ s hne hs,
      visit_node_non_spec_asc cov _ s hne]
  | SpecBlock cs => simp [contains_spec] at h
  | IfElse c t e2 =>
    have hne : is_spec_block (.IfElse c t e2) = false := rfl
    have hc : contains_spec c = false := by
      have := h; simp [contains_spec] at this; exact this.1.1
    have ht : contains_spec t = false := by
      have := h; simp [contains_spec] at this; exact this.1.2
    have he : contains_spec e2 = false := by
      have := h; simp [contains_spec] at this; exact this.2
    rw [visit_pre_post, visit_node_non_spec_inside cov false _ s hne hs,
      visit_spec_free_inside cov c hc s hs, visit_spec_free_inside cov t ht s hs,
      visit_spec_free_inside cov e2 he s hs, visit_node_non_spec_asc cov _ s hne]
  | Sequence cs =>
    have hne : is_spec_block (.Sequence cs) = false := rfl
    rw [visit_pre_post, visit_node_non_spec_inside cov false _ s hne hs,
      visit_list_spec_free_inside cov cs (by simpa [contains_spec] using h) s hs,
      visit_node_non_spec_asc cov _ s hne]
  | OtherExp cs =>
    have hne : is_spec_block (.OtherExp cs) = false := rfl
    rw [visit_pre_post, visit_node_non_spec_inside cov false _ s hne hs,
      visit_list_spec_free_inside cov cs (by simpa [contains_spec] using h) s hs,
      visit_node_non_spec_asc cov _ s hne]

theorem visit_list_spec_free_inside (cov : ExpData → Bool) (cs : ExpList)
    (h : contains_spec_list cs = false) (s : TraversalState) (hs : s.is_inside_spec = true) :
    visit_list cov s cs = s := by
  cases cs with
  | nil => rw [visit_list]
  | cons c rest =>
    have hc : contains_spec c = false := by
      have := h; simp [contains_spec_list] at this; exact this.1
    have hr : contains_spec_list rest = false := by
      have := h; simp [contains_spec_list] at this; exact this.2
    rw [visit_list, visit_spec_free_inside cov c hc s hs,
      visit_list_spec_free_inside cov rest hr s hs]
end

lemma visit_node_non_spec_desc (cov : ExpData → Bool) (e : ExpData) (s : TraversalState)
    (hne : is_spec_block e = false) (hs : s.is_inside_spec = false) :
    visit_node cov false e s
      = TraversalState.mk false (s.dispatched ++ (if cov e then [e] else [])) := by
  obtain ⟨si, sd⟩ := s
  simp only at hs
  subst hs
  unfold visit_node
  rw [hne]
  by_cases hcov : cov e <;> simp [hcov]

lemma visit_node_spec_desc (cov : ExpData → Bool) (cs : ExpList) (s : TraversalState) :
    visit_node cov false (.SpecBlock cs) s = TraversalState.mk true s.dispatched := by
  unfold visit_node
  simp [is_spec_block]

lemma visit_node_spec_asc (cov : ExpData → Bool) (cs : ExpList) (s : TraversalState) :
    visit_node cov true (.SpecBlock cs) s = TraversalState.mk false s.dispatched := by
  unfold visit_node
  simp [is_spec_block]

mutual
theorem visit_no_nested (cov : ExpData → Bool) (e : ExpData)
    (h : no_nested_specs e = true) (s : TraversalState) (hs : s.is_inside_spec = false) :
    visit_pre_post cov s e
      = TraversalState.mk false (s.dispatched ++ spec_skipping_dispatch cov e) := by
  cases e with
  | Call op cs =>
    have hne : is_spec_block (.Call op cs) = false := rfl
    rw [visit_pre_post, visit_node_non_spec_desc cov _ s hne hs,
      visit_list_no_nested cov cs (by simpa [no_nested_specs] using h) _ rfl,
      visit_node_non_spec_asc cov _ _ hne]
    simp [spec_skipping_dispatch, List.append_assoc]
  | Invoke cs =>
    have hne : is_spec_block (.Invoke cs) = false := rfl
    rw [visit_pre_post, visit_node_non_spec_desc cov _ s hne hs,
      visit_list_no_nested cov cs (by simpa [no_nested_specs] using h) _ rfl,
      visit_node_non_spec_asc cov _ _ hne]
    simp [spec_skipping_dispatch, List.append_assoc]
  | Lambda b =>
    have hne : is_spec_block (.Lambda b) = false := rfl
    rw [visit_pre_post, visit_node_non_spec_desc cov _ s hne hs,
      visit_no_nested cov b (by simpa [no_nested_specs] using h) _ rfl,
      visit_node_non_spec_asc cov _ _ hne]
    simp [spec_skipping_dispatch, List.append_assoc]
  | Value v =>
    have hne : is_spec_block (.Value v) = false := rfl
    rw [visit_pre_post, visit_node_non_spec_desc cov _ s hne hs,
      visit_node_non_spec_asc cov _ _ hne]
    simp [spec_skipping_dispatch]
  | LocalVar =>
    have hne : is_spec_block .LocalVar = false := rfl
    rw [visit_pre_post, visit_node_non_spec_desc cov _ s hne hs,
      visit_node_non_spec_asc cov _ _ hne]
    simp [spec_skipping_dispatch]
  | SpecBlock cs =>
    have hcs : contains_spec_list cs = false := by simpa [no_nested_specs] using h
    rw [visit_pre_post, visit_node_spec_desc,
      visit_list_spec_free_inside cov cs hcs _ rfl, visit_node_spec_asc]
    simp [spec_skipping_dispatch]
  | IfElse c t e2 =>
    have hne : is_spec_block (.IfElse c t e2) = false := rfl
    have h3 := h
    simp only [no_nested_specs, Bool.and_eq_true] at h3
    rw [visit_pre_post, visit_node_non_spec_desc cov _ s hne hs,
      visit_no_nested cov c h3.1.1 _ rfl,
      visit_no_nested cov t h3.1.2 _ rfl,
      visit_no_nested cov e2 h3.2 _ rfl,
      visit_node_non_spec_asc cov _ _ hne]
    simp [spec_skipping_dispatch, List.append_assoc]
  | Sequence cs =>
    have hne : is_spec_block (.Sequence cs) = false := rfl
    rw [visit_pre_post, visit_node_non_spec_desc cov _ s hne hs,
      visit_list_no_nested cov cs (by simpa [no_nested_specs] using h) _ rfl,
      visit_node_non_spec_asc cov _ _ hne]
    simp [spec_skipping_dispatch, List.append_assoc]
  | OtherExp cs =>
    have hne : is_spec_block (.OtherExp cs) = false := rfl
    rw [visit_pre_post, visit_node_non_spec_desc cov _ s hne hs,
      visit_list_no_nested cov cs (by simpa [no_nested_specs] using h) _ rfl,
      visit_node_non_spec_asc cov _ _ hne]
    simp [spec_skipping_dispatch, List.append_assoc]

theorem visit_list_no_nested (cov : ExpData → Bool) (cs : ExpList)
    (h : no_nested_specs_list cs = true) (s : TraversalState) (hs : s.is_inside_spec = false) :
    visit_list cov s cs
      = TraversalState.mk false (s.dispatched ++ spec_skipping_list cov cs) := by
  cases cs with
  | nil =>
    rw [visit_list]
    obtain ⟨si, sd⟩ := s
    simp only at hs
    subst hs
    simp [spec_skipping_list]
  | cons c rest =>
    have h2 := h
    simp only [no_nested_specs_list, Bool.and_eq_true] at h2
    rw [visit_list, visit_no_nested cov c h2.1 s hs,
      visit_list_no_nested cov rest h2.2 _ rfl]
    simp [spec_skipping_list, List.append_assoc]
end

/-- Claim C9, amended.  Provided no specification block is nested inside
another, the traversal of a function body dispatches exactly the nodes
of the reference walk that skips every spec-block subtree in full, and
finishes outside any spec block — so no node inside a spec block is
ever dispatched to a mutation operator.  (With nested spec blocks the
boolean flag is cleared on the inner block's exit, so nodes of the
outer block after the inner one are dispatched; see the
counterexample.) -/
theorem C9_spec_block_exclusion (cov : ExpData → Bool) (body : ExpData)
    (h : no_nested_specs body = true) :
    traverse_function cov body
      = TraversalState.mk false (spec_skipping_dispatch cov body) := by
  unfold traverse_function
  rw [visit_no_nested cov body h (TraversalState.mk false []) rfl]
  simp

/-- Claim C9 witness: a body holding one spec block followed by a binary
call, with no nesting, dispatches only the nodes outside the spec
block. -/
theorem C9_spec_block_exclusion_witness :
    no_nested_specs
      (ExpData.Sequence (.cons (.SpecBlock (.cons .LocalVar .nil))
        (.cons (.Call .Add .nil) .nil))) = true
    ∧ traverse_function full_coverage
        (ExpData.Sequence (.cons (.SpecBlock (.cons .LocalVar .nil))
          (.cons (.Call .Add .nil) .nil)))
      = TraversalState.mk false
          (spec_skipping_dispatch full_coverage
            (ExpData.Sequence (.cons (.SpecBlock (.cons .LocalVar .nil))
              (.cons (.Call .Add .nil) .nil)))) :=
  ⟨by decide,
    C9_spec_block_exclusion full_coverage
      (ExpData.Sequence (.cons (.SpecBlock (.cons .LocalVar .nil))
        (.cons (.Call .Add .nil) .nil))) (by decide)⟩

/-- Claim C9 counterexample: with one spec block nested in another, the
node following the inner block inside the outer block is dispatched,
although it lies inside a specification block — the boolean flag was
reset to false when the inner block was left. -/
theorem C9_counterexample :
    ExpData.Call .Add .nil
      ∈ (traverse_function full_coverage
          (ExpData.SpecBlock (.cons (.SpecBlock (.cons .LocalVar .nil))
            (.cons (.Call .Add .nil) .nil)))).dispatched
    ∧ ExpData.Call .Add .nil
        ∈ inside_spec_nodes
            (ExpData.SpecBlock (.cons (.SpecBlock (.cons .LocalVar .nil))
              (.cons (.Call .Add .nil) .nil))) := by
  decide

lemma map_mutants_mem (f : Operation → Option MutantInfo) :
    ∀ (l : List Operation) (res : List MutantInfo) (m : MutantInfo),
      map_mutants f l = some res → m ∈ res → ∃ v ∈ l, f v = some m := by
  intro l
  induction l with
  | nil =>
    intro res m h hm
    rw [map_mutants] at h
    injection h with h2
    subst h2
    simp at hm
  | cons v rest ih =>
    intro res m h hm
    rw [map_mutants] at h
    cases hf : f v with
    | none => rw [hf] at h; cases h
    | some mv =>
      rw [hf] at h
      cases hrest : map_mutants f rest with
      | none => rw [hrest] at h; cases h
      | some ms =>
        rw [hrest] at h
        injection h with h2
        subst h2
        rcases List.mem_cons.mp hm with heq | hm'
        · subst heq; exact ⟨v, List.mem_cons_self v rest, hf⟩
        · obtain ⟨w, hw, hfw⟩ := ih ms m hrest hm'
          exact ⟨w, List.mem_cons_of_mem _ hw, hfw⟩

lemma surviving_replacement_render (operation v : Operation) (lz rz : Bool)
    (hfilter : zero_exclusion_filter operation lz rz v = true) :
    (operation = .Eq → rz = true → to_string_if_binop v ≠ some ['<', '='])
    ∧ (operation = .Eq → lz = true → to_string_if_binop v ≠ some ['>', '='])
    ∧ (operation = .Neq → rz = true → to_string_if_binop v ≠ some ['>'])
    ∧ (operation = .Neq → lz = true → to_string_if_binop v ≠ some ['<'])
    ∧ (operation = .Gt → rz = true → to_string_if_binop v ≠ some ['!', '='])
    ∧ (operation = .Lt → lz = true → to_string_if_binop v ≠ some ['!', '=']) := by
  refine ⟨?_, ?_, ?_, ?_, ?_, ?_⟩ <;>
    (intro hop hz; subst hop; revert hfilter hz;
     cases lz <;> cases rz <;> cases v <;> decide)

/-- Claim C6: for every Binary-Replacement candidate in the relational
class with a zero-literal operand, the emitted mutants never use the
excluded replacement tokens: equality never becomes the le/ge
comparison on the zero side, inequality never becomes the strict
comparison on the zero side, and the strict comparisons on the zero
side never become inequality. -/
theorem C6_zero_literal_exclusions (operation : Operation) (opLoc : Span) (l r : ExpLoc)
    (source : List Char) (res : List MutantInfo) (m : MutantInfo)
    (happly : (Binary.mk operation opLoc [l, r]).apply source = some res)
    (hm : m ∈ res) :
    (operation = .Eq → contains_value_zero r.exp = true → m.mutation.new_value ≠ ['<', '='])
    ∧ (operation = .Eq → contains_value_zero l.exp = true → m.mutation.new_value ≠ ['>', '='])
    ∧ (operation = .Neq → contains_value_zero r.exp = true → m.mutation.new_value ≠ ['>'])
    ∧ (operation = .Neq → contains_value_zero l.exp = true → m.mutation.new_value ≠ ['<'])
    ∧ (operation = .Gt → contains_value_zero r.exp = true → m.mutation.new_value ≠ ['!', '='])
    ∧ (operation = .Lt → contains_value_zero l.exp = true → m.mutation.new_value ≠ ['!', '=']) := by
  simp only [Binary.apply] at happly
  split at happly
  · injection happly with h2; subst h2; simp at hm
  · split at happly
    · cases happly
    · split at happly
      · cases happly
      · split at happly
        · cases happly
        · obtain ⟨v, hv, hfv⟩ := map_mutants_mem _ _ res m happly hm
          have hfilter := List.of_mem_filter hv
          cases hb : to_string_if_binop v with
          | none => rw [hb] at hfv; cases hfv
          | some base =>
            rw [hb] at hfv
            injection hfv with h3
            subst h3
            refine ⟨?_, ?_, ?_, ?_, ?_, ?_⟩
            · intro hop hz
              subst hop
              have hr := (surviving_replacement_render _ v _ _ hfilter).1 rfl hz
              rw [hb] at hr
              intro hcontra
              exact hr (congrArg some hcontra)
            · intro hop hz
              subst hop
              have hr := (surviving_replacement_render _ v _ _ hfilter).2.1 rfl hz
              rw [hb] at hr
              intro hcontra
              exact hr (congrArg some hcontra)
            · intro hop hz
              subst hop
              have hr := (surviving_replacement_render _ v _ _ hfilter).2.2.1 rfl hz
              rw [hb] at hr
              intro hcontra
              exact hr (congrArg some hcontra)
            · intro hop hz
              subst hop
              have hr := (surviving_replacement_render _ v _ _ hfilter).2.2.2.1 rfl hz
              rw [hb] at hr
              intro hcontra
              exact hr (congrArg some hcontra)
            · intro hop hz
              subst hop
              have hr := (surviving_replacement_render _ v _ _ hfilter).2.2.2.2.1 rfl hz
              rw [hb] at hr
              intro hcontra
              exact hr (congrArg some hcontra)
            · intro hop hz
              subst hop
              have hr := (surviving_replacement_render _ v _ _ hfilter).2.2.2.2.2 rfl hz
              rw [hb] at hr
              intro hcontra
              exact hr (congrArg some hcontra)

/-- Claim C6 witness: mutating x == 0 emits the four replacements
!=, <, >, >= and the emitted new operator of each mutant differs from
the excluded token <=; shown here for the first emitted mutant. -/
theorem C6_zero_literal_exclusions_witness :
    (Binary.mk .Eq (Span.mk 0 6)
      [ExpLoc.mk .LocalVar (Span.mk 0 1), ExpLoc.mk (.Value (.Number 0)) (Span.mk 5 6)]).apply
      ['x', ' ', '=', '=', ' ', '0']
      = some
        [MutantInfo.mk ['x', ' ', '!', '=', ' ', '0']
          (Mutation.mk (Span.mk 2 4) "binary_operator_replacement" ['=', '='] ['!', '=']),
         MutantInfo.mk ['x', ' ', '<', ' ', '0']
          (Mutation.mk (Span.mk 2 4) "binary_operator_replacement" ['=', '='] ['<']),
         MutantInfo.mk ['x', ' ', '>', ' ', '0']
          (Mutation.mk (Span.mk 2 4) "binary_operator_replacement" ['=', '='] ['>']),
         MutantInfo.mk ['x', ' ', '>', '=', ' ', '0']
          (Mutation.mk (Span.mk 2 4) "binary_operator_replacement" ['=', '='] ['>', '='])]
    ∧ (MutantInfo.mk ['x', ' ', '!', '=', ' ', '0']
        (Mutation.mk (Span.mk 2 4) "binary_operator_replacement"
          ['=', '='] ['!', '='])).mutation.new_value ≠ ['<', '='] := by
  constructor
  · decide
  · exact (C6_zero_literal_exclusions .Eq (Span.mk 0 6) (ExpLoc.mk .LocalVar (Span.mk 0 1))
      (ExpLoc.mk (.Value (.Number 0)) (Span.mk 5 6)) ['x', ' ', '=', '=', ' ', '0']
      [MutantInfo.mk ['x', ' ', '!', '=', ' ', '0']
        (Mutation.mk (Span.mk 2 4) "binary_operator_replacement" ['=', '='] ['!', '=']),
       MutantInfo.mk ['x', ' ', '<', ' ', '0']
        (Mutation.mk (Span.mk 2 4) "binary_operator_replacement" ['=', '='] ['<']),
       MutantInfo.mk ['x', ' ', '>', ' ', '0']
        (Mutation.mk (Span.mk 2 4) "binary_operator_replacement" ['=', '='] ['>']),
       MutantInfo.mk ['x', ' ', '>', '=', ' ', '0']
        (Mutation.mk (Span.mk 2 4) "binary_operator_replacement" ['=', '='] ['>', '='])]
      (MutantInfo.mk ['x', ' ', '!', '=', ' ', '0']
        (Mutation.mk (Span.mk 2 4) "binary_operator_replacement" ['=', '='] ['!', '=']))
      (by decide) (by decide)).1 rfl (by decide)
